import Mathlib

/-!
Verification of docker-hub-cleaner.

Shallow embedding of the core of `ataraskov/docker-hub-cleaner` (Go):

* `internal/api/client.go` — rate-limited, retrying Docker Hub client
  (`doRequest`, `Authenticate`, `ListTags`, `DeleteTag`);
* `internal/api/errors.go` — error taxonomy;
* `internal/filter` — tag-name filters (`FilterTags`);
* `internal/policy` — retention policies (`CountRetentionPolicy`,
  `CompositePolicy`);
* `internal/sort` — tag sorters (built on Go's `sort.Slice`, modelled below);
* `internal/cleaner/cleaner.go` — the `Clean` orchestrator.

Pure functions are translated directly; the HTTP layer is made explicit by
passing the sequence of server responses as a function argument, and the
`time.Sleep` back-off delays are returned as an explicit list of seconds
slept.  Go `int`/`int64` values are modelled as `Int` (no arithmetic here
can overflow in the source's domain), HTTP statuses as `Nat`.
-/

namespace DockerHubCleaner

/-! Section: Data model (`internal/api/models.go`) -/

/-- Model of `api.Tag` — one Docker Hub image tag.  The `Images` slice is never read
by the core pipeline and is omitted; `LastUpdated` is a timestamp (seconds,
arbitrary epoch). -/
structure Tag where
  Name : String
  LastUpdated : Int
  FullSize : Int
  deriving DecidableEq, Repr, Inhabited

/-- Error taxonomy of `internal/api/errors.go`: the four sentinel errors plus
`APIError{StatusCode, Endpoint, Message}` and the client-side decode failure
(`fmt.Errorf("failed to decode ...")`). -/
inductive ApiErr where
  | unauthorized
  | notFound
  | rateLimited
  | networkError (msg : String)
  | apiError (statusCode : Nat) (endpoint : String) (message : String)
  | decodeError (msg : String)
  deriving DecidableEq, Repr

/-- An HTTP response as far as the client inspects it: status code and body. -/
structure HttpResp where
  statusCode : Nat
  body : String
  deriving DecidableEq, Repr

/-- Outcome of one `httpClient.Do` call: a transport-level failure message or
a response. -/
abbrev DoResult := Except String HttpResp

def StatusTooManyRequests : Nat := 429

/-! Section: `doRequest` (`internal/api/client.go:87-129`)

The server side is modelled as `responses : Nat → DoResult`, where
`responses 0` answers the initial `httpClient.Do` and `responses (i+1)`
answers the `i`-th retry.  The result pairs the Go return value with the
list of back-off sleeps performed, in seconds (`time.Duration(1<<i) *
time.Second`). -/

/-- The retry loop `for i := 0; i < 5; i++` of `doRequest`: sleep `1<<i`
seconds, re-issue the request, return any non-429 response, and fail with
`ErrRateLimited` after the fifth throttled retry. -/
def doRequestRetry (responses : Nat → DoResult) (i : Nat) (sleeps : List Nat) :
    Except ApiErr HttpResp × List Nat :=
  if i < 5 then
    let sleeps' := sleeps ++ [2 ^ i]
    match responses (i + 1) with
    | .error m => (.error (.networkError m), sleeps')
    | .ok r =>
      if r.statusCode ≠ StatusTooManyRequests then (.ok r, sleeps')
      else doRequestRetry responses (i + 1) sleeps'
  else (.error .rateLimited, sleeps)
termination_by 5 - i

/-- Model of `doRequest`: issue the request (after the rate-limiter wait); a transport
failure surfaces once as `ErrNetworkError`; a 429 enters the back-off retry
loop; any other response is returned unmapped. -/
def doRequest (responses : Nat → DoResult) : Except ApiErr HttpResp × List Nat :=
  match responses 0 with
  | .error m => (.error (.networkError m), [])
  | .ok r =>
    if r.statusCode = StatusTooManyRequests then doRequestRetry responses 0 []
    else (.ok r, [])

/-! Section: Status mapping of the individual calls (`internal/api/client.go`) -/

def DefaultBaseURL : String := "https://hub.docker.com/v2"

/-- URL built by `DeleteTag` (`client.go:186`). -/
def deleteTagURL (repo tag : String) : String :=
  DefaultBaseURL ++ "/repositories/" ++ repo ++ "/tags/" ++ tag ++ "/"

/-- Model of `Authenticate` (`client.go:43-81`): POST the credentials through
`doRequest`; any non-200 response becomes `NewAPIError(status,
"/users/login/", body)`; a 200 body is decoded into the token (`decode`
models `json.Decode` of `LoginResponse`).  The sleep trace of `doRequest` is
carried through. -/
def Authenticate (responses : Nat → DoResult) (decode : String → Option String) :
    Except ApiErr String × List Nat :=
  match doRequest responses with
  | (.error e, s) => (.error e, s)
  | (.ok resp, s) =>
    if resp.statusCode ≠ 200 then
      (.error (.apiError resp.statusCode "/users/login/" resp.body), s)
    else
      match decode resp.body with
      | none => (.error (.decodeError resp.body), s)
      | some tok => (.ok tok, s)

/-- Model of `DeleteTag` (`client.go:185-211`): 404 ↦ `ErrNotFound`, 401 ↦
`ErrUnauthorized`, anything other than 204/200 ↦ `APIError(status, url,
body)`, else success. -/
def DeleteTag (responses : Nat → DoResult) (repo tag : String) :
    Except ApiErr Unit × List Nat :=
  match doRequest responses with
  | (.error e, s) => (.error e, s)
  | (.ok resp, s) =>
    if resp.statusCode = 404 then (.error .notFound, s)
    else if resp.statusCode = 401 then (.error .unauthorized, s)
    else if resp.statusCode ≠ 204 ∧ resp.statusCode ≠ 200 then
      (.error (.apiError resp.statusCode (deleteTagURL repo tag) resp.body), s)
    else (.ok (), s)

/-! Section: Pagination (`ListTags`, `client.go:131-183`) -/

/-- One decoded `TagsResponse` page: the `results` slice and the `next`
marker (`*string`). -/
structure Page where
  results : List Tag
  next : Option String
  deriving DecidableEq, Repr

/-- The loop-exit test `tagsResp.Next == nil || *tagsResp.Next == ""`. -/
def pageDone (p : Page) : Bool :=
  match p.next with
  | none => true
  | some s => s == ""

/-- Model of `ListTags` with the successive page fetches (status mapping and decoding
included) supplied as a list: element `i` is the outcome of fetching page
`i+1`.  Results are appended in server-return order; the first failing page
aborts the whole listing with that error and no tags.  (With well-formed
input the list is never exhausted before a terminal `next`; the `[]` base
case returns the accumulator-free empty suffix.) -/
def ListTags : List (Except ApiErr Page) → Except ApiErr (List Tag)
  | [] => .ok []
  | .error e :: _ => .error e
  | .ok p :: rest =>
    if pageDone p then .ok p.results
    else
      match ListTags rest with
      | .error e => .error e
      | .ok ts => .ok (p.results ++ ts)

/-! Section: Rate limiter configuration (`NewClient`, `client.go:32-40`)

`golang.org/x/time/rate`: `Every(interval)` converts a minimum interval
between events into an events-per-second `Limit` (`none` models `Inf` for
non-positive intervals); `NewLimiter(r, b)` is a token bucket with refill
rate `r` and burst (bucket capacity) `b`. -/

/-- Model of `rate.Every`, with the interval in seconds. -/
def rateEvery (intervalSeconds : ℚ) : Option ℚ :=
  if intervalSeconds ≤ 0 then none else some (1 / intervalSeconds)

/-- A `rate.Limiter` as configured: refill rate (events/second, `none` =
infinite) and burst. -/
structure Limiter where
  limit : Option ℚ
  burst : Int
  deriving DecidableEq, Repr

/-- The limiter installed by `NewClient`:
`rate.NewLimiter(rate.Every(time.Second), 5)` (the source comment reads
"5 requests per second"). -/
def newClientLimiter : Limiter :=
  { limit := rateEvery 1, burst := 5 }

/-! Section: Filters (`internal/filter/filter.go`)

Only the name predicate matters to the pipeline; a `TagFilter` is modelled
as `String → Bool` and the absent filter as `none`. -/

/-- Model of `filter.FilterTags`: `nil` filter passes everything through; otherwise
keep the tags whose `Name` matches, preserving order. -/
def FilterTags (tags : List Tag) (filter : Option (String → Bool)) : List Tag :=
  match filter with
  | none => tags
  | some f => tags.filter (fun t => f t.Name)

/-! Section: Retention policies (`internal/policy`) -/

/-- Model of `policy.PolicyMode` (OR = keep if any, AND = keep only if all). -/
inductive PolicyMode where
  | or
  | and
  deriving DecidableEq, Repr

/-- Model of `CompositePolicy.ShouldKeep` (`composite.go:34-59`): an empty policy
list keeps everything; otherwise the mode's loop with early exit, i.e.
`any` / `all`. -/
def CompositeShouldKeep (mode : PolicyMode) (policies : List (Tag → Bool))
    (tag : Tag) : Bool :=
  if policies.length = 0 then true
  else
    match mode with
    | .or => policies.any (fun p => p tag)
    | .and => policies.all (fun p => p tag)

/-- Model of `NewCountRetentionPolicy(count, sorted)` (`policy/count.go`): the
keep-set is filled by `for i := 0; i < min(count, len(sorted)); i++`
with the names of the first entries of the pre-sorted list.  `count` is a
Go `int`, so it is kept as `Int` (a non-positive count yields an empty
keep-set, as in the source). -/
def NewCountRetentionPolicy (count : Int) (sorted : List Tag) : List String :=
  (sorted.take (min count (sorted.length : Int)).toNat).map Tag.Name

/-- Model of `CountRetentionPolicy.ShouldKeep`: membership of the tag's name in the
keep-set (`map[string]bool` lookup defaulting to `false`). -/
def CountShouldKeep (keepSet : List String) (tag : Tag) : Bool :=
  keepSet.contains tag.Name

/-! Section: Orchestrator (`internal/cleaner/cleaner.go`) -/

/-- Model of `cleaner.CleanResult`.  `Errors` keeps the wrapped per-tag messages. -/
structure CleanResult where
  TotalTags : Nat
  FilteredTags : Nat
  KeptTags : Nat
  DeletedTags : List String
  Errors : List String
  TotalSize : Int
  ReclaimedSize : Int
  deriving DecidableEq, Repr

/-- The zero value the orchestrator starts from (`result := &CleanResult{}`). -/
def emptyResult : CleanResult :=
  { TotalTags := 0
    FilteredTags := 0
    KeptTags := 0
    DeletedTags := []
    Errors := []
    TotalSize := 0
    ReclaimedSize := 0 }

/-- The classification test of `Clean` step 4:
`c.policy != nil && c.policy.ShouldKeep(tag)`. -/
def keepDecision (policy : Option (Tag → Bool)) (tag : Tag) : Bool :=
  match policy with
  | some p => p tag
  | none => false

/-- Step 4 of `Clean`: one pass over the (sorted) tags, appending each tag
to `tagsToKeep` or `tagsToDelete` according to `keepDecision` — i.e. the
two order-preserving sublists selected by the predicate. -/
def classify (policy : Option (Tag → Bool)) (tags : List Tag) :
    List Tag × List Tag :=
  (tags.filter (keepDecision policy), tags.filter (fun t => !keepDecision policy t))

/-- Step 3 of `Clean`: apply the sorter when one is configured. -/
def sortStage (sorter : Option (List Tag → List Tag)) (tags : List Tag) :
    List Tag :=
  match sorter with
  | some s => s tags
  | none => tags

/-- Summing `tag.FullSize` over a list (used for `TotalSize` and
`ReclaimedSize`). -/
def totalSizeOf (tags : List Tag) : Int :=
  (tags.map Tag.FullSize).sum

/-- Model of `Cleaner.Clean` (`cleaner.go:65-170`).  Inputs: the `ListTags` outcome,
the optional filter / sorter / policy, the dry-run flag, and — for live
mode — `deleteOutcome`, giving each `DeleteTag` call's result (`none` =
success).  Output: the Go return value paired with the list of tag names
for which a delete call was actually issued to the client, in order.
A listing failure is returned wrapped (`"failed to list tags: %w"`); only
the wrapped error value is modelled. -/
def Clean (listResult : Except ApiErr (List Tag))
    (filter : Option (String → Bool))
    (sorter : Option (List Tag → List Tag))
    (policy : Option (Tag → Bool))
    (dryRun : Bool)
    (deleteOutcome : String → Option ApiErr) :
    Except ApiErr CleanResult × List String :=
  match listResult with
  | .error e => (.error e, [])
  | .ok tags0 =>
    let totalTags := tags0.length
    if totalTags = 0 then ({ emptyResult with TotalTags := totalTags } |> .ok, [])
    else
      let totalSize := totalSizeOf tags0
      let tags1 := FilterTags tags0 filter
      let filteredTags := match filter with
        | some _ => tags1.length
        | none => totalTags
      let base : CleanResult :=
        { emptyResult with
          TotalTags := totalTags
          FilteredTags := filteredTags
          TotalSize := totalSize }
      if tags1.length = 0 then (.ok base, [])
      else
        let tags2 := sortStage sorter tags1
        let keep := (classify policy tags2).1
        let del := (classify policy tags2).2
        let base2 :=
          { base with KeptTags := keep.length, ReclaimedSize := totalSizeOf del }
        if del.length = 0 then (.ok base2, [])
        else if dryRun then
          ({ base2 with DeletedTags := del.map Tag.Name } |> .ok, [])
        else
          let deleted := (del.filter (fun t => (deleteOutcome t.Name).isNone)).map Tag.Name
          let errs := (del.filter (fun t => (deleteOutcome t.Name).isSome)).map
            (fun t => "failed to delete tag " ++ t.Name)
          ({ base2 with DeletedTags := deleted, Errors := errs } |> .ok,
            del.map Tag.Name)

/-! Section: Go's `sort.Slice` (pdqsort)

Both sorters re-order a copied slice with `sort.Slice` from the Go standard
library (`internal/sort/lexicographical.go:22`, `internal/sort/semver.go`).
`sort.Slice` is not part of this repository; what follows is a faithful
model of its implementation in the Go version the project builds with
(`golang:1.25.1`, `sort/zsortfunc.go`): pattern-defeating quicksort over
`Less`/`Swap` on indices.  The slice is modelled as a `List Tag`, the
comparator as `lt : Tag → Tag → Bool`; loops whose Go counterparts iterate
on mutable ints carry either a termination measure or an explicit fuel
argument.  Every fuel is called with a bound that exceeds the loop's
maximal iteration count (each Go loop here advances an index by at least
one per iteration inside `[a, b)`), so fuel exhaustion never occurs on any
input the theorems below evaluate. -/

/-- Indexed read of the reflected slice (evaluated inputs never read out of
range; `default` keeps the model total). -/
def aget (d : List Tag) (i : Nat) : Tag := d.getD i default

/-- Model of `data.Swap(i, j)`. -/
def aswap (d : List Tag) (i j : Nat) : List Tag :=
  (d.set i (aget d j)).set j (aget d i)

/-- Model of `data.Less(i, j)`. -/
def dLess (lt : Tag → Tag → Bool) (d : List Tag) (i j : Nat) : Bool :=
  lt (aget d i) (aget d j)

/-- Inner loop of `insertionSort_func`:
`for j := i; j > a && data.Less(j, j-1); j-- { data.Swap(j, j-1) }`
(structural recursion on the decreasing `j`). -/
def insertionSortInner (lt : Tag → Tag → Bool) (a : Nat) :
    List Tag → Nat → List Tag
  | d, 0 => d
  | d, j + 1 =>
    if a < j + 1 ∧ dLess lt d (j + 1) j then
      insertionSortInner lt a (aswap d (j + 1) j) j
    else d

/-- Outer loop of `insertionSort_func`: `for i := a + 1; i < b; i++`
(the fuel bounds the `b - i` remaining iterations). -/
def insertionSortOuter (lt : Tag → Tag → Bool) (a b : Nat) :
    List Tag → Nat → Nat → List Tag
  | d, _, 0 => d
  | d, i, fuel + 1 =>
    if i < b then
      insertionSortOuter lt a b (insertionSortInner lt a d i) (i + 1) fuel
    else d

/-- Model of `insertionSort_func(data, a, b)`. -/
def insertionSort (lt : Tag → Tag → Bool) (d : List Tag) (a b : Nat) : List Tag :=
  insertionSortOuter lt a b d (a + 1) (b + 1)

/-- Model of `siftDown_func(data, lo, hi, first)` — the loop walks `root` down the
heap; the chosen child strictly exceeds `root` and stays below `hi`, so a
fuel of `hi + 1` is never exhausted. -/
def siftDown (lt : Tag → Tag → Bool) (hi first : Nat) :
    List Tag → Nat → Nat → List Tag
  | d, _, 0 => d
  | d, root, fuel + 1 =>
    if 2 * root + 1 < hi then
      let child :=
        if 2 * root + 2 < hi ∧ dLess lt d (first + (2 * root + 1)) (first + (2 * root + 2))
        then 2 * root + 2 else 2 * root + 1
      if ¬ dLess lt d (first + root) (first + child) then d
      else siftDown lt hi first (aswap d (first + root) (first + child)) child fuel
    else d

/-- Heap-construction loop of `heapSort_func`:
`for i := (hi - 1) / 2; i >= 0; i--`. -/
def heapSortBuild (lt : Tag → Tag → Bool) (hi first : Nat) (d : List Tag) :
    Nat → List Tag
  | 0 => siftDown lt hi first d 0 (hi + 1)
  | i + 1 => heapSortBuild lt hi first (siftDown lt hi first d (i + 1) (hi + 1)) i

/-- Extraction loop of `heapSort_func`:
`for i := hi - 1; i >= 0; i-- { data.Swap(first, first+i); siftDown(data, lo, i, first) }`. -/
def heapSortExtract (lt : Tag → Tag → Bool) (first : Nat) (d : List Tag) :
    Nat → List Tag
  | 0 => siftDown lt 0 first (aswap d first first) 0 1
  | i + 1 =>
    heapSortExtract lt first
      (siftDown lt (i + 1) first (aswap d first (first + (i + 1))) 0 (i + 2)) i

/-- Model of `heapSort_func(data, a, b)` (only reached with `b - a > 12`). -/
def heapSort (lt : Tag → Tag → Bool) (d : List Tag) (a b : Nat) : List Tag :=
  let hi := b - a
  heapSortExtract lt a (heapSortBuild lt hi a d ((hi - 1) / 2)) (hi - 1)

/-- First scan of `partition_func`: `for i <= j && data.Less(i, a) { i++ }`. -/
def scanLo (lt : Tag → Tag → Bool) (d : List Tag) (a j : Nat) (i : Nat)
    (fuel : Nat) : Nat :=
  match fuel with
  | 0 => i
  | fuel + 1 =>
    if i ≤ j ∧ dLess lt d i a then scanLo lt d a j (i + 1) fuel else i

/-- Second scan of `partition_func`: `for i <= j && !data.Less(j, a) { j-- }`. -/
def scanHi (lt : Tag → Tag → Bool) (d : List Tag) (a i : Nat) (j : Nat)
    (fuel : Nat) : Nat :=
  match fuel with
  | 0 => j
  | fuel + 1 =>
    if i ≤ j ∧ ¬ dLess lt d j a then scanHi lt d a i (j - 1) fuel else j

/-- The swap loop of `partition_func` after the first exchange: scan both
ends, swap the out-of-place pair, repeat until the pointers cross; returns
the slice and the final `j`. -/
def partitionLoop (lt : Tag → Tag → Bool) (F a : Nat) (d : List Tag)
    (i j : Nat) (fuel : Nat) : List Tag × Nat :=
  match fuel with
  | 0 => (d, j)
  | fuel + 1 =>
    let i' := scanLo lt d a j i F
    let j' := scanHi lt d a i' j F
    if i' > j' then (d, j')
    else partitionLoop lt F a (aswap d i' j') (i' + 1) (j' - 1) fuel

/-- Model of `partition_func(data, a, b, pivot)`: move the pivot to `a`, two-pointer
partition of `[a+1, b)`, final swap of the pivot into place; returns
`(slice, newpivot, alreadyPartitioned)`. -/
def partitionPdq (lt : Tag → Tag → Bool) (F : Nat) (d0 : List Tag)
    (a b pivot : Nat) : List Tag × Nat × Bool :=
  let d := aswap d0 a pivot
  let i := scanLo lt d a (b - 1) (a + 1) F
  let j := scanHi lt d a i (b - 1) F
  if i > j then (aswap d j a, j, true)
  else
    let d := aswap d i j
    let r := partitionLoop lt F a d (i + 1) (j - 1) F
    (aswap r.1 r.2 a, r.2, false)

/-- First scan of `partitionEqual_func`: `for i <= j && !data.Less(a, i) { i++ }`. -/
def scanEqLo (lt : Tag → Tag → Bool) (d : List Tag) (a j : Nat) (i : Nat)
    (fuel : Nat) : Nat :=
  match fuel with
  | 0 => i
  | fuel + 1 =>
    if i ≤ j ∧ ¬ dLess lt d a i then scanEqLo lt d a j (i + 1) fuel else i

/-- Second scan of `partitionEqual_func`: `for i <= j && data.Less(a, j) { j-- }`. -/
def scanEqHi (lt : Tag → Tag → Bool) (d : List Tag) (a i : Nat) (j : Nat)
    (fuel : Nat) : Nat :=
  match fuel with
  | 0 => j
  | fuel + 1 =>
    if i ≤ j ∧ dLess lt d a j then scanEqHi lt d a i (j - 1) fuel else j

/-- The swap loop of `partitionEqual_func`; returns the slice and the final
`i` (the first index of the strictly-greater suffix). -/
def partitionEqualLoop (lt : Tag → Tag → Bool) (F a : Nat) (d : List Tag)
    (i j : Nat) (fuel : Nat) : List Tag × Nat :=
  match fuel with
  | 0 => (d, i)
  | fuel + 1 =>
    let i' := scanEqLo lt d a j i F
    let j' := scanEqHi lt d a i' j F
    if i' > j' then (d, i')
    else partitionEqualLoop lt F a (aswap d i' j') (i' + 1) (j' - 1) fuel

/-- Model of `partitionEqual_func(data, a, b, pivot)`. -/
def partitionEqual (lt : Tag → Tag → Bool) (F : Nat) (d0 : List Tag)
    (a b pivot : Nat) : List Tag × Nat :=
  let d := aswap d0 a pivot
  partitionEqualLoop lt F a d (a + 1) (b - 1) F

/-- The plateau scan of `partialInsertionSort_func`:
`for i < b && !data.Less(i, i-1) { i++ }` (fuel bounds `b - i`). -/
def pisScan (lt : Tag → Tag → Bool) (d : List Tag) (b : Nat) :
    Nat → Nat → Nat
  | i, 0 => i
  | i, fuel + 1 =>
    if i < b ∧ ¬ dLess lt d i (i - 1) then pisScan lt d b (i + 1) fuel else i

/-- Left shift of `partialInsertionSort_func`:
`for j := i - 1; j >= a+1; j-- { if !Less(j, j-1) break; Swap(j, j-1) }`. -/
def pisShiftLeft (lt : Tag → Tag → Bool) (a : Nat) :
    List Tag → Nat → List Tag
  | d, 0 => d
  | d, j + 1 =>
    if a + 1 ≤ j + 1 ∧ dLess lt d (j + 1) j then
      pisShiftLeft lt a (aswap d (j + 1) j) j
    else d

/-- Right shift of `partialInsertionSort_func`:
`for j := i + 1; j < b; j++ { if !Less(j, j-1) break; Swap(j, j-1) }`. -/
def pisShiftRight (lt : Tag → Tag → Bool) (b : Nat) :
    List Tag → Nat → Nat → List Tag
  | d, _, 0 => d
  | d, j, fuel + 1 =>
    if j < b ∧ dLess lt d j (j - 1) then
      pisShiftRight lt b (aswap d j (j - 1)) (j + 1) fuel
    else d

/-- The `maxSteps = 5` loop of `partialInsertionSort_func` (with
`shortestShifting = 50`); `i` persists across steps; returns the slice and
whether the range ended up sorted. -/
def partialInsertionSortLoop (lt : Tag → Tag → Bool) (a b : Nat)
    (d : List Tag) (i : Nat) : Nat → List Tag × Bool
  | 0 => (d, false)
  | steps + 1 =>
    let i' := pisScan lt d b i (b + 1)
    if i' = b then (d, true)
    else if b - a < 50 then (d, false)
    else
      let d := aswap d i' (i' - 1)
      let d := if i' - a ≥ 2 then pisShiftLeft lt a d (i' - 1) else d
      let d := if b - i' ≥ 2 then pisShiftRight lt b d (i' + 1) (b + 1) else d
      partialInsertionSortLoop lt a b d i' steps

/-- Model of `partialInsertionSort_func(data, a, b)`. -/
def partialInsertionSort (lt : Tag → Tag → Bool) (d : List Tag) (a b : Nat) :
    List Tag × Bool :=
  partialInsertionSortLoop lt a b d (a + 1) 5

/-- The three-valued `sortedHint`. -/
inductive Hint where
  | increasing
  | decreasing
  | unknown
  deriving DecidableEq, Repr

/-- Model of `order2_func`: order two indices by the data they point to, counting
comparison-swaps. -/
def order2 (lt : Tag → Tag → Bool) (d : List Tag) (a b swaps : Nat) :
    Nat × Nat × Nat :=
  if dLess lt d b a then (b, a, swaps + 1) else (a, b, swaps)

/-- Model of `median_func`: index of the median of three, threading the swap count. -/
def median3 (lt : Tag → Tag → Bool) (d : List Tag) (a b c swaps : Nat) :
    Nat × Nat :=
  let r1 := order2 lt d a b swaps
  let r2 := order2 lt d r1.2.1 c r1.2.2
  let r3 := order2 lt d r1.1 r2.1 r2.2.2
  (r3.2.1, r3.2.2)

/-- Model of `medianAdjacent_func`: median of `{a-1, a, a+1}`. -/
def medianAdjacent (lt : Tag → Tag → Bool) (d : List Tag) (a swaps : Nat) :
    Nat × Nat :=
  median3 lt d (a - 1) a (a + 1) swaps

/-- The `switch swaps` at the end of `choosePivot_func`
(`maxSwaps = 4 * 3`). -/
def hintOfSwaps (swaps : Nat) : Hint :=
  if swaps = 0 then .increasing
  else if swaps = 12 then .decreasing
  else .unknown

/-- Model of `choosePivot_func(data, a, b)` (`shortestNinther = 50`). -/
def choosePivot (lt : Tag → Tag → Bool) (d : List Tag) (a b : Nat) :
    Nat × Hint :=
  let l := b - a
  let i := a + l / 4 * 1
  let j := a + l / 4 * 2
  let k := a + l / 4 * 3
  if l ≥ 8 then
    if l ≥ 50 then
      let ri := medianAdjacent lt d i 0
      let rj := medianAdjacent lt d j ri.2
      let rk := medianAdjacent lt d k rj.2
      let rm := median3 lt d ri.1 rj.1 rk.1 rk.2
      (rm.1, hintOfSwaps rm.2)
    else
      let rm := median3 lt d i j k 0
      (rm.1, hintOfSwaps rm.2)
  else (j, hintOfSwaps 0)

/-- Model of `reverseRange_func(data, a, b)`: swap `(a, b-1)`, `(a+1, b-2)`, …
(fuel bounds the number of converging steps). -/
def reverseRangeLoop : List Tag → Nat → Nat → Nat → List Tag
  | d, _, _, 0 => d
  | d, i, j, fuel + 1 =>
    if i < j then reverseRangeLoop (aswap d i j) (i + 1) (j - 1) fuel else d

def reverseRange (d : List Tag) (a b : Nat) : List Tag :=
  reverseRangeLoop d a (b - 1) (b + 1)

/-- Go `bits.Len` on a `uint`: the minimal number of bits to represent `n`
(the fuel of 64 covers every value a Go `uint` can hold). -/
def bitsLenAux : Nat → Nat → Nat
  | 0, _ => 0
  | fuel + 1, n => if n = 0 then 0 else bitsLenAux fuel (n / 2) + 1

def bitsLen (n : Nat) : Nat := bitsLenAux 64 n

/-- Go `nextPowerOfTwo(length) = 1 << bits.Len(uint(length))`. -/
def nextPowerOfTwo (length : Nat) : Nat := 1 <<< bitsLen length

/-- One step of the `xorshift` generator used by `breakPatterns_func`
(64-bit: `r ^= r << 13; r ^= r >> 7; r ^= r << 17`). -/
def xorshiftNext (r : Nat) : Nat :=
  let r := (r ^^^ (r <<< 13)) % 2 ^ 64
  let r := (r ^^^ (r >>> 7)) % 2 ^ 64
  (r ^^^ (r <<< 17)) % 2 ^ 64

/-- Model of `breakPatterns_func(data, a, b)`: scatter three elements around the
middle using the xorshift stream seeded with the length.  (Unreachable for
the list lengths evaluated below — the driver only calls it after an
unbalanced partition of a range longer than 12.) -/
def breakPatterns (d : List Tag) (a b : Nat) : List Tag :=
  let length := b - a
  if length ≥ 8 then
    let r1 := xorshiftNext length
    let r2 := xorshiftNext r1
    let r3 := xorshiftNext r2
    let modulus := nextPowerOfTwo length
    let idx := a + length / 4 * 2 - 1
    let pick := fun (rnd : Nat) =>
      let o := rnd % modulus
      if o ≥ length then o - length else o
    let d := aswap d (idx - 1) (a + pick r1)
    let d := aswap d idx (a + pick r2)
    aswap d (idx + 1) (a + pick r3)
  else d

/-- Model of `pdqsort_func(data, a, b, limit)`.  The Go function's `for` loop and its
recursive calls are both rendered as recursion; `wasBalanced` /
`wasPartitioned` are the loop-carried flags (reset to `true` at every Go
function entry, i.e. at every recursive call).  `fuel` dominates the
recursion/loop depth: every recursive call strictly shrinks `b - a`. -/
def pdqsortLoop (lt : Tag → Tag → Bool) (F : Nat) :
    Nat → Nat → Nat → Nat → Bool → Bool → List Tag → List Tag
  | 0, _, _, _, _, _, d => d
  | fuel + 1, a, b, limit, wasBalanced, wasPartitioned, d =>
    let length := b - a
    if length ≤ 12 then insertionSort lt d a b
    else if limit = 0 then heapSort lt d a b
    else
      let dl := if wasBalanced = false then (breakPatterns d a b, limit - 1)
        else (d, limit)
      let d := dl.1
      let limit := dl.2
      let ph := choosePivot lt d a b
      let dph := if ph.2 = Hint.decreasing then
          (reverseRange d a b, (b - 1) - (ph.1 - a), Hint.increasing)
        else (d, ph.1, ph.2)
      let d := dph.1
      let pivot := dph.2.1
      let hint := dph.2.2
      let pis := if wasBalanced ∧ wasPartitioned ∧ hint = Hint.increasing then
          partialInsertionSort lt d a b
        else (d, false)
      if pis.2 then pis.1
      else
        let d := pis.1
        if 0 < a ∧ ¬ dLess lt d (a - 1) pivot then
          let dm := partitionEqual lt F d a b pivot
          pdqsortLoop lt F fuel dm.2 b limit wasBalanced wasPartitioned dm.1
        else
          let dm := partitionPdq lt F d a b pivot
          let d := dm.1
          let mid := dm.2.1
          let alreadyPartitioned := dm.2.2
          let leftLen := mid - a
          let rightLen := b - mid
          let balanceThreshold := length / 8
          let wasBalanced' := decide (min leftLen rightLen ≥ balanceThreshold)
          if leftLen < rightLen then
            let d := pdqsortLoop lt F fuel a mid limit true true d
            pdqsortLoop lt F fuel (mid + 1) b limit wasBalanced' alreadyPartitioned d
          else
            let d := pdqsortLoop lt F fuel (mid + 1) b limit true true d
            pdqsortLoop lt F fuel a mid limit wasBalanced' alreadyPartitioned d

/-- Entry point `sort.Slice(x, less)`: `limit := bits.Len(uint(length))`, then
`pdqsort(data, 0, length, limit)`.  Scan fuel `n + 2` and driver fuel
`2n + 8` strictly exceed the respective iteration bounds. -/
def sortSlice (lt : Tag → Tag → Bool) (xs : List Tag) : List Tag :=
  let n := xs.length
  pdqsortLoop lt (n + 2) (2 * n + 8) 0 n (bitsLen n) true true xs

/-- Go's `<` on `string`: byte-wise lexicographic comparison, which on
UTF-8 encoded strings coincides with code-point order, modelled on the
character list (this is also exactly Lean's `String.lt`). -/
def goStringLt : List Char → List Char → Bool
  | _, [] => false
  | [], _ :: _ => true
  | a :: as, b :: bs =>
    if a < b then true
    else if b < a then false
    else goStringLt as bs

/-- Model of `LexicographicalSorter.Sort` (`internal/sort/lexicographical.go:18-28`):
copy the slice (the copy is the list value itself here) and
`sort.Slice(sorted, func(i, j int) bool { return sorted[i].Name > sorted[j].Name })`
— descending name order (`x > y` iff `y < x`). -/
def lexicographicalSort (tags : List Tag) : List Tag :=
  sortSlice (fun t1 t2 => goStringLt t2.Name.data t1.Name.data) tags

/-- A `Do` outcome that is an HTTP 429 ("too many requests") response. -/
def isThrottle (x : DoResult) : Bool :=
  match x with
  | .ok r => r.statusCode == StatusTooManyRequests
  | .error _ => false

/-- A 13-tag listing with repeated names (`FullSize` marks each tag's input
position): long enough that `sort.Slice` leaves the insertion-sort path and
partitions. -/
def unstableInput : List Tag :=
  [⟨"a", 0, 0⟩, ⟨"c", 0, 1⟩, ⟨"b", 0, 2⟩, ⟨"a", 0, 3⟩, ⟨"c", 0, 4⟩,
   ⟨"b", 0, 5⟩, ⟨"a", 0, 6⟩, ⟨"c", 0, 7⟩, ⟨"b", 0, 8⟩, ⟨"a", 0, 9⟩,
   ⟨"c", 0, 10⟩, ⟨"b", 0, 11⟩, ⟨"a", 0, 12⟩]

/-! Section: Theorems -/

/-- A throttling `Do` outcome is a response with status 429. -/
theorem isThrottle_spec {x : DoResult} (h : isThrottle x = true) :
    ∃ r, x = .ok r ∧ r.statusCode = StatusTooManyRequests := by
  cases x with
  | error m => simp [isThrottle] at h
  | ok r => exact ⟨r, rfl, by simpa [isThrottle] using h⟩

/-- Claim C1. For every fetched tag list, filter, sorter and policy — the
sorter fulfilling its contract of returning a reordering of its input —
the classification stage of `Clean` partitions the post-filter tag set
exactly: keep-list ++ delete-list is a permutation of the filtered list
(no duplicate or missing element) and no tag lies in both lists. -/
theorem clean_classify_partition
    (tags0 : List Tag) (filter : Option (String → Bool))
    (sorter : Option (List Tag → List Tag)) (policy : Option (Tag → Bool))
    (hs : (sortStage sorter (FilterTags tags0 filter)).Perm (FilterTags tags0 filter)) :
    (((classify policy (sortStage sorter (FilterTags tags0 filter))).1 ++
        (classify policy (sortStage sorter (FilterTags tags0 filter))).2).Perm
      (FilterTags tags0 filter)) ∧
    ∀ t : Tag,
      ¬(t ∈ (classify policy (sortStage sorter (FilterTags tags0 filter))).1 ∧
        t ∈ (classify policy (sortStage sorter (FilterTags tags0 filter))).2) := by
  constructor
  · exact (List.filter_append_perm _ _).trans hs
  · rintro t ⟨h1, h2⟩
    have e1 := List.of_mem_filter h1
    have e2 := List.of_mem_filter h2
    rw [e1] at e2
    simp at e2

/-- Witness for C1 at a concrete two-tag listing with a policy keeping
exactly tag `a`. -/
theorem clean_classify_partition_witness :
    (((classify (some (fun t => t.Name == "a"))
        (sortStage none (FilterTags ([⟨"a", 0, 1⟩, ⟨"b", 0, 2⟩] : List Tag) none))).1 ++
        (classify (some (fun t => t.Name == "a"))
        (sortStage none (FilterTags ([⟨"a", 0, 1⟩, ⟨"b", 0, 2⟩] : List Tag) none))).2).Perm
      (FilterTags ([⟨"a", 0, 1⟩, ⟨"b", 0, 2⟩] : List Tag) none)) ∧
    ∀ t : Tag,
      ¬(t ∈ (classify (some (fun t => t.Name == "a"))
          (sortStage none (FilterTags ([⟨"a", 0, 1⟩, ⟨"b", 0, 2⟩] : List Tag) none))).1 ∧
        t ∈ (classify (some (fun t => t.Name == "a"))
          (sortStage none (FilterTags ([⟨"a", 0, 1⟩, ⟨"b", 0, 2⟩] : List Tag) none))).2) :=
  clean_classify_partition [⟨"a", 0, 1⟩, ⟨"b", 0, 2⟩] none none
    (some (fun t => t.Name == "a")) (List.Perm.refl _)

/-- Claim C2. For every count `N` and pre-sorted list given at construction,
the count policy keeps a tag iff its name is among the first
`min(N, length)` names of that construction-time list; `ShouldKeep` takes
only the tag, so the decision cannot depend on any list presented later. -/
theorem countPolicy_keeps_first_min (count : Int) (sorted : List Tag) (tag : Tag) :
    CountShouldKeep (NewCountRetentionPolicy count sorted) tag = true ↔
      tag.Name ∈ (sorted.map Tag.Name).take (min count (sorted.length : Int)).toNat := by
  unfold CountShouldKeep NewCountRetentionPolicy
  rw [← List.map_take]
  exact List.elem_iff

/-- Claim C3. In dry-run mode with a non-empty delete-list, `Clean` issues no
delete call, the result's `DeletedTags` is exactly the delete-list's names
in order, and `ReclaimedSize` is the sum of the delete-list's sizes. -/
theorem clean_dryRun_no_deletes
    (tags0 : List Tag) (filter : Option (String → Bool))
    (sorter : Option (List Tag → List Tag)) (policy : Option (Tag → Bool))
    (deleteOutcome : String → Option ApiErr)
    (hs : (sortStage sorter (FilterTags tags0 filter)).Perm (FilterTags tags0 filter))
    (hdel : (classify policy (sortStage sorter (FilterTags tags0 filter))).2 ≠ []) :
    (Clean (.ok tags0) filter sorter policy true deleteOutcome).2 = [] ∧
    ∃ r : CleanResult,
      (Clean (.ok tags0) filter sorter policy true deleteOutcome).1 = .ok r ∧
      r.DeletedTags =
        ((classify policy (sortStage sorter (FilterTags tags0 filter))).2).map Tag.Name ∧
      r.ReclaimedSize =
        totalSizeOf ((classify policy (sortStage sorter (FilterTags tags0 filter))).2) := by
  have h2 : sortStage sorter (FilterTags tags0 filter) ≠ [] := by
    intro h
    rw [h] at hdel
    simp [classify] at hdel
  have h1 : FilterTags tags0 filter ≠ [] := by
    intro h
    apply h2
    rw [h] at hs ⊢
    exact hs.eq_nil
  have h0 : tags0 ≠ [] := by
    intro h
    apply h1
    cases filter <;> simp [FilterTags, h]
  have hlen0 : ¬ tags0.length = 0 := by simpa [List.length_eq_zero] using h0
  have hlen1 : ¬ (FilterTags tags0 filter).length = 0 := by
    simpa [List.length_eq_zero] using h1
  have hlen2 : ¬ ((classify policy (sortStage sorter (FilterTags tags0 filter))).2).length = 0 := by
    simpa [List.length_eq_zero] using hdel
  simp only [Clean, hlen0, hlen1, hlen2, if_false, if_true, ite_true, ite_false]
  exact ⟨trivial, _, rfl, rfl, rfl⟩

/-- Witness for C3: two tags, no filter/sorter, nil policy (everything is
deleted), dry-run. -/
theorem clean_dryRun_no_deletes_witness :
    (Clean (.ok ([⟨"a", 0, 5⟩, ⟨"b", 0, 7⟩] : List Tag)) none none none true
      (fun _ => none)).2 = [] ∧
    ∃ r : CleanResult,
      (Clean (.ok ([⟨"a", 0, 5⟩, ⟨"b", 0, 7⟩] : List Tag)) none none none true
        (fun _ => none)).1 = .ok r ∧
      r.DeletedTags =
        ((classify none (sortStage none (FilterTags ([⟨"a", 0, 5⟩, ⟨"b", 0, 7⟩] : List Tag) none))).2).map Tag.Name ∧
      r.ReclaimedSize =
        totalSizeOf ((classify none (sortStage none (FilterTags ([⟨"a", 0, 5⟩, ⟨"b", 0, 7⟩] : List Tag) none))).2) :=
  clean_dryRun_no_deletes [⟨"a", 0, 5⟩, ⟨"b", 0, 7⟩] none none none (fun _ => none)
    (List.Perm.refl _) (by decide)

/-- One throttled step of the retry loop: sleep `2^i` seconds and continue. -/
theorem doRequestRetry_step (responses : Nat → DoResult) (i : Nat)
    (sleeps : List Nat) (r : HttpResp) (hi : i < 5)
    (hr : responses (i + 1) = .ok r)
    (h429 : r.statusCode = StatusTooManyRequests) :
    doRequestRetry responses i sleeps =
      doRequestRetry responses (i + 1) (sleeps ++ [2 ^ i]) := by
  rw [doRequestRetry]
  simp [hi, hr, h429]

/-- The retry loop gives up with `ErrRateLimited` after five retries. -/
theorem doRequestRetry_exhaust (responses : Nat → DoResult) (sleeps : List Nat) :
    doRequestRetry responses 5 sleeps = (.error .rateLimited, sleeps) := by
  rw [doRequestRetry]
  simp

/-- A non-throttling retry response is returned as the result. -/
theorem doRequestRetry_done (responses : Nat → DoResult) (i : Nat)
    (sleeps : List Nat) (r : HttpResp) (hi : i < 5)
    (hr : responses (i + 1) = .ok r)
    (hne : r.statusCode ≠ StatusTooManyRequests) :
    doRequestRetry responses i sleeps = (.ok r, sleeps ++ [2 ^ i]) := by
  rw [doRequestRetry]
  simp [hi, hr, hne]

/-- A throttled first response sends `doRequest` into the retry loop. -/
theorem doRequest_throttled_start (responses : Nat → DoResult) (r0 : HttpResp)
    (hr0 : responses 0 = .ok r0)
    (hs0 : r0.statusCode = StatusTooManyRequests) :
    doRequest responses = doRequestRetry responses 0 [] := by
  unfold doRequest
  rw [hr0]
  simp [hs0]

/-- Claim C4. Throttling responses are retried up to five times with back-off
sleeps of 1, 2, 4, 8, 16 seconds: (exhaustion) if the initial response and
all five retries are 429s the call fails with `RateLimited` and no
successful result, after exactly those five sleeps; (recovery) if the
responses are throttling up to attempt `k - 1` (`1 ≤ k ≤ 5`) and attempt
`k` yields a non-throttling response, that response is returned as the
result after sleeps `1, …, 2^(k-1)`. -/
theorem doRequest_backoff_policy :
    (∀ responses : Nat → DoResult,
      (∀ i, i ≤ 5 → isThrottle (responses i) = true) →
      doRequest responses = (.error .rateLimited, [1, 2, 4, 8, 16])) ∧
    (∀ (responses : Nat → DoResult) (r : HttpResp) (k : Nat),
      1 ≤ k → k ≤ 5 → (∀ i, i < k → isThrottle (responses i) = true) →
      responses k = .ok r → r.statusCode ≠ StatusTooManyRequests →
      doRequest responses = (.ok r, (List.range k).map (fun i => 2 ^ i))) := by
  constructor
  · intro responses h
    obtain ⟨r0, hr0, hs0⟩ := isThrottle_spec (h 0 (by omega))
    obtain ⟨r1, hr1, hs1⟩ := isThrottle_spec (h 1 (by omega))
    obtain ⟨r2, hr2, hs2⟩ := isThrottle_spec (h 2 (by omega))
    obtain ⟨r3, hr3, hs3⟩ := isThrottle_spec (h 3 (by omega))
    obtain ⟨r4, hr4, hs4⟩ := isThrottle_spec (h 4 (by omega))
    obtain ⟨r5, hr5, hs5⟩ := isThrottle_spec (h 5 (by omega))
    rw [doRequest_throttled_start responses r0 hr0 hs0,
      doRequestRetry_step responses 0 [] r1 (by omega) hr1 hs1,
      doRequestRetry_step responses 1 _ r2 (by omega) hr2 hs2,
      doRequestRetry_step responses 2 _ r3 (by omega) hr3 hs3,
      doRequestRetry_step responses 3 _ r4 (by omega) hr4 hs4,
      doRequestRetry_step responses 4 _ r5 (by omega) hr5 hs5,
      doRequestRetry_exhaust]
    simp
  · intro responses r k hk1 hk5 hth hr hne
    obtain ⟨r0, hr0, hs0⟩ := isThrottle_spec (hth 0 (by omega))
    interval_cases k
    · rw [doRequest_throttled_start responses r0 hr0 hs0,
        doRequestRetry_done responses 0 [] r (by omega) hr hne]
      simp [List.range_succ]
    · obtain ⟨r1, hr1, hs1⟩ := isThrottle_spec (hth 1 (by omega))
      rw [doRequest_throttled_start responses r0 hr0 hs0,
        doRequestRetry_step responses 0 [] r1 (by omega) hr1 hs1,
        doRequestRetry_done responses 1 _ r (by omega) hr hne]
      simp [List.range_succ]
    · obtain ⟨r1, hr1, hs1⟩ := isThrottle_spec (hth 1 (by omega))
      obtain ⟨r2, hr2, hs2⟩ := isThrottle_spec (hth 2 (by omega))
      rw [doRequest_throttled_start responses r0 hr0 hs0,
        doRequestRetry_step responses 0 [] r1 (by omega) hr1 hs1,
        doRequestRetry_step responses 1 _ r2 (by omega) hr2 hs2,
        doRequestRetry_done responses 2 _ r (by omega) hr hne]
      simp [List.range_succ]
    · obtain ⟨r1, hr1, hs1⟩ := isThrottle_spec (hth 1 (by omega))
      obtain ⟨r2, hr2, hs2⟩ := isThrottle_spec (hth 2 (by omega))
      obtain ⟨r3, hr3, hs3⟩ := isThrottle_spec (hth 3 (by omega))
      rw [doRequest_throttled_start responses r0 hr0 hs0,
        doRequestRetry_step responses 0 [] r1 (by omega) hr1 hs1,
        doRequestRetry_step responses 1 _ r2 (by omega) hr2 hs2,
        doRequestRetry_step responses 2 _ r3 (by omega) hr3 hs3,
        doRequestRetry_done responses 3 _ r (by omega) hr hne]
      simp [List.range_succ]
    · obtain ⟨r1, hr1, hs1⟩ := isThrottle_spec (hth 1 (by omega))
      obtain ⟨r2, hr2, hs2⟩ := isThrottle_spec (hth 2 (by omega))
      obtain ⟨r3, hr3, hs3⟩ := isThrottle_spec (hth 3 (by omega))
      obtain ⟨r4, hr4, hs4⟩ := isThrottle_spec (hth 4 (by omega))
      rw [doRequest_throttled_start responses r0 hr0 hs0,
        doRequestRetry_step responses 0 [] r1 (by omega) hr1 hs1,
        doRequestRetry_step responses 1 _ r2 (by omega) hr2 hs2,
        doRequestRetry_step responses 2 _ r3 (by omega) hr3 hs3,
        doRequestRetry_step responses 3 _ r4 (by omega) hr4 hs4,
        doRequestRetry_done responses 4 _ r (by omega) hr hne]
      simp [List.range_succ]

/-- Witness for C4: a server that always throttles, and one that throttles
once and then succeeds. -/
theorem doRequest_backoff_policy_witness :
    doRequest (fun _ => .ok ⟨429, "busy"⟩) =
      (.error .rateLimited, [1, 2, 4, 8, 16]) ∧
    doRequest (fun i => if i = 0 then .ok ⟨429, "busy"⟩ else .ok ⟨200, "done"⟩) =
      (.ok ⟨200, "done"⟩, [1]) := by
  constructor
  · exact doRequest_backoff_policy.1 _ (fun i _ => rfl)
  · have := doRequest_backoff_policy.2
      (fun i => if i = 0 then .ok ⟨429, "busy"⟩ else .ok ⟨200, "done"⟩)
      ⟨200, "done"⟩ 1 (by omega) (by omega)
      (fun i hi => by interval_cases i; rfl) rfl (by decide)
    simpa using this

/-- Claim C5. The composite policy's truth table: with an empty sub-policy
list it keeps every tag in both modes; with a non-empty list, OR keeps a
tag iff at least one sub-policy keeps it and AND keeps a tag iff all
sub-policies keep it. -/
theorem composite_policy_truth_table (tag : Tag) (policies : List (Tag → Bool)) :
    (CompositeShouldKeep .or [] tag = true ∧
      CompositeShouldKeep .and [] tag = true) ∧
    (policies ≠ [] →
      ((CompositeShouldKeep .or policies tag = true ↔
          ∃ p ∈ policies, p tag = true) ∧
       (CompositeShouldKeep .and policies tag = true ↔
          ∀ p ∈ policies, p tag = true))) := by
  refine ⟨⟨rfl, rfl⟩, fun hne => ⟨?_, ?_⟩⟩
  · simp [CompositeShouldKeep, List.length_eq_zero, hne, List.any_eq_true]
  · simp [CompositeShouldKeep, List.length_eq_zero, hne, List.all_eq_true]

/-- Witness for C5 at a two-policy list (one always-reject, one keeping
tag `x`) and tag `x`. -/
theorem composite_policy_truth_table_witness :
    (CompositeShouldKeep .or [fun _ => false, fun t => t.Name == "x"]
        ⟨"x", 0, 0⟩ = true ↔
      ∃ p ∈ ([fun _ => false, fun t => t.Name == "x"] : List (Tag → Bool)),
        p ⟨"x", 0, 0⟩ = true) ∧
    (CompositeShouldKeep .and [fun _ => false, fun t => t.Name == "x"]
        ⟨"x", 0, 0⟩ = true ↔
      ∀ p ∈ ([fun _ => false, fun t => t.Name == "x"] : List (Tag → Bool)),
        p ⟨"x", 0, 0⟩ = true) :=
  (composite_policy_truth_table ⟨"x", 0, 0⟩
    [fun _ => false, fun t => t.Name == "x"]).2 (by simp)

/-- Claim C6. Pagination: when every non-final page carries a continuation
marker and the final page's marker is absent or empty, `ListTags` returns
the concatenation of the pages' results in server order; and when some page
fetch fails after a run of continuing pages, the whole listing fails with
exactly that error and no partial tag list. -/
theorem listTags_pagination :
    (∀ (front : List Page) (lastP : Page),
      (∀ p ∈ front, pageDone p = false) → pageDone lastP = true →
      ListTags ((front ++ [lastP]).map Except.ok) =
        .ok ((front.map Page.results).flatten ++ lastP.results)) ∧
    (∀ (front : List Page) (e : ApiErr) (rest : List (Except ApiErr Page)),
      (∀ p ∈ front, pageDone p = false) →
      ListTags (front.map Except.ok ++ .error e :: rest) = .error e) := by
  constructor
  · intro front lastP hfront hlast
    induction front with
    | nil => simp [ListTags, hlast]
    | cons p ps ih =>
      have hp : pageDone p = false := hfront p (by simp)
      have hps : ∀ q ∈ ps, pageDone q = false := fun q hq => hfront q (by simp [hq])
      have ih' := ih hps
      simp only [List.map_append, List.map_cons, List.map_nil] at ih'
      simp [ListTags, hp, ih']
  · intro front e rest hfront
    induction front with
    | nil => simp [ListTags]
    | cons p ps ih =>
      have hp : pageDone p = false := hfront p (by simp)
      have hps : ∀ q ∈ ps, pageDone q = false := fun q hq => hfront q (by simp [hq])
      simp [ListTags, hp, ih hps]

/-- Witness for C6: the spec's example — pages
`[{results: [a, b], next: "p2"}, {results: [c], next: null}]` yield
`[a, b, c]`. -/
theorem listTags_pagination_witness :
    ListTags [Except.ok ⟨[⟨"a", 0, 1⟩, ⟨"b", 0, 2⟩], some "p2"⟩,
        Except.ok ⟨[⟨"c", 0, 3⟩], none⟩] =
      .ok [⟨"a", 0, 1⟩, ⟨"b", 0, 2⟩, ⟨"c", 0, 3⟩] := by
  have := listTags_pagination.1 [⟨[⟨"a", 0, 1⟩, ⟨"b", 0, 2⟩], some "p2"⟩]
    ⟨[⟨"c", 0, 3⟩], none⟩ (by decide) (by decide)
  simpa using this

/-- Claim C7, counterexample. The claim asserts that `authenticate` fails
with `Unauthorized` on a 401 response; in the code, `Authenticate` maps
every non-200 status — including 401 — to the generic
`APIError{status, "/users/login/", body}`, not to `ErrUnauthorized`. -/
theorem authenticate_401_generic_apiError :
    (Authenticate (fun _ => .ok ⟨401, "bad credentials"⟩) (fun _ => none)).1 =
      .error (.apiError 401 "/users/login/" "bad credentials") ∧
    (Authenticate (fun _ => .ok ⟨401, "bad credentials"⟩) (fun _ => none)).1 ≠
      .error .unauthorized := by
  constructor
  · rfl
  · intro h
    have h1 : (Authenticate (fun _ => .ok ⟨401, "bad credentials"⟩)
        (fun _ => none)).1 =
        .error (.apiError 401 "/users/login/" "bad credentials") := rfl
    rw [h1] at h
    exact ApiErr.noConfusion (Except.error.inj h)

/-- Claim C7, amended. A non-2xx, non-throttling response is never retried
(`doRequest` returns it directly, with no back-off sleeps); `DeleteTag`
(like `ListTags` and `GetRepository`) maps 401 to `Unauthorized`, 404 to
`NotFound` and every other non-success status to the generic API error
carrying status code, endpoint and body; `Authenticate`, however, maps
every non-200 status — 401 included — to the generic API error for the
login endpoint. -/
theorem transport_status_mapping :
    (∀ (responses : Nat → DoResult) (r : HttpResp),
      responses 0 = .ok r → r.statusCode ≠ StatusTooManyRequests →
      doRequest responses = (.ok r, [])) ∧
    (∀ (responses : Nat → DoResult) (r : HttpResp) (repo tag : String),
      responses 0 = .ok r → r.statusCode ≠ StatusTooManyRequests →
      ((r.statusCode = 404 → DeleteTag responses repo tag = (.error .notFound, [])) ∧
       (r.statusCode = 401 → DeleteTag responses repo tag = (.error .unauthorized, [])) ∧
       (r.statusCode ≠ 404 → r.statusCode ≠ 401 → r.statusCode ≠ 204 →
        r.statusCode ≠ 200 →
        DeleteTag responses repo tag =
          (.error (.apiError r.statusCode (deleteTagURL repo tag) r.body), [])))) ∧
    (∀ (responses : Nat → DoResult) (r : HttpResp) (decode : String → Option String),
      responses 0 = .ok r → r.statusCode ≠ StatusTooManyRequests →
      r.statusCode ≠ 200 →
      (Authenticate responses decode).1 =
        .error (.apiError r.statusCode "/users/login/" r.body)) := by
  have base : ∀ (responses : Nat → DoResult) (r : HttpResp),
      responses 0 = .ok r → r.statusCode ≠ StatusTooManyRequests →
      doRequest responses = (.ok r, []) := by
    intro responses r hr hne
    unfold doRequest
    rw [hr]
    simp [hne]
  refine ⟨base, ?_, ?_⟩
  · intro responses r repo tag hr hne
    refine ⟨?_, ?_, ?_⟩
    · intro h404
      unfold DeleteTag
      rw [base responses r hr hne]
      simp [h404]
    · intro h401
      unfold DeleteTag
      rw [base responses r hr hne]
      have : r.statusCode ≠ 404 := by omega
      simp [h401]
    · intro h404 h401 h204 h200
      unfold DeleteTag
      rw [base responses r hr hne]
      simp [h404, h401, h204, h200]
  · intro responses r decode hr hne h200
    unfold Authenticate
    rw [base responses r hr hne]
    simp [h200]

/-- Witness for C7's amended theorem: concrete servers answering 500, 404,
401 and a 401 login. -/
theorem transport_status_mapping_witness :
    doRequest (fun _ => .ok ⟨500, "boom"⟩) = (.ok ⟨500, "boom"⟩, []) ∧
    DeleteTag (fun _ => .ok ⟨404, "nf"⟩) "user/repo" "v1" = (.error .notFound, []) ∧
    DeleteTag (fun _ => .ok ⟨401, "na"⟩) "user/repo" "v1" = (.error .unauthorized, []) ∧
    DeleteTag (fun _ => .ok ⟨500, "boom"⟩) "user/repo" "v1" =
      (.error (.apiError 500 (deleteTagURL "user/repo" "v1") "boom"), []) ∧
    (Authenticate (fun _ => .ok ⟨401, "na"⟩) (fun _ => none)).1 =
      .error (.apiError 401 "/users/login/" "na") := by
  refine ⟨?_, ?_, ?_, ?_, ?_⟩
  · exact transport_status_mapping.1 _ ⟨500, "boom"⟩ rfl (by decide)
  · exact (transport_status_mapping.2.1 _ ⟨404, "nf"⟩ "user/repo" "v1" rfl
      (by decide)).1 rfl
  · exact (transport_status_mapping.2.1 _ ⟨401, "na"⟩ "user/repo" "v1" rfl
      (by decide)).2.1 rfl
  · exact (transport_status_mapping.2.1 _ ⟨500, "boom"⟩ "user/repo" "v1" rfl
      (by decide)).2.2 (by decide) (by decide) (by decide) (by decide)
  · exact transport_status_mapping.2.2 _ ⟨401, "na"⟩ (fun _ => none) rfl
      (by decide) (by decide)

/-- Claim C9. The limiter `NewClient` installs is
`rate.NewLimiter(rate.Every(time.Second), 5)`: a token bucket with burst 5
refilling at **1** permit per second — not the 5 permits per second the
code's own comment ("5 requests per second") and the claim state. -/
theorem newClient_limiter_configuration :
    newClientLimiter.limit = some 1 ∧
    newClientLimiter.burst = 5 ∧
    newClientLimiter.limit ≠ some 5 := by
  refine ⟨?_, rfl, ?_⟩
  · show rateEvery 1 = some 1
    norm_num [rateEvery]
  · show rateEvery 1 ≠ some 5
    norm_num [rateEvery]

/-- Claim C10. With no retention policy configured (`nil`), the classification
keeps nothing: every tag reaching the classification stage lands in the
delete-list, any successful `Clean` run reports zero kept tags — the
opposite default of the empty composite policy, which keeps every tag in
both modes. -/
theorem nil_policy_deletes_everything :
    (∀ tags : List Tag, classify none tags = ([], tags)) ∧
    (∀ (listResult : Except ApiErr (List Tag)) (filter : Option (String → Bool))
        (sorter : Option (List Tag → List Tag)) (dryRun : Bool)
        (deleteOutcome : String → Option ApiErr) (r : CleanResult),
      (Clean listResult filter sorter none dryRun deleteOutcome).1 = .ok r →
      r.KeptTags = 0) ∧
    (∀ (mode : PolicyMode) (tag : Tag), CompositeShouldKeep mode [] tag = true) := by
  have hclassify : ∀ tags : List Tag, classify none tags = ([], tags) := by
    intro tags
    simp [classify, keepDecision]
  refine ⟨hclassify, ?_, fun mode tag => rfl⟩
  intro listResult filter sorter dryRun deleteOutcome r h
  cases listResult with
  | error e => simp [Clean] at h
  | ok tags0 =>
    simp only [Clean] at h
    split at h
    · cases h.symm
      rfl
    · split at h
      · cases h.symm
        rfl
      · rw [hclassify (sortStage sorter (FilterTags tags0 filter))] at h
        split at h
        · cases h.symm
          rfl
        · split at h
          · cases h.symm
            rfl
          · cases h.symm
            rfl

/-- Witness for C10: a one-tag repository cleaned with a nil policy keeps
zero tags. -/
theorem nil_policy_deletes_everything_witness :
    ∃ r : CleanResult,
      (Clean (.ok ([⟨"a", 0, 7⟩] : List Tag)) none none none true
        (fun _ => none)).1 = .ok r ∧ r.KeptTags = 0 :=
  ⟨{ TotalTags := 1, FilteredTags := 1, KeptTags := 0, DeletedTags := ["a"], Errors := [], TotalSize := 7, ReclaimedSize := 7 },
   rfl,
   nil_policy_deletes_everything.2.1 (.ok [⟨"a", 0, 7⟩]) none none true
     (fun _ => none)
     { TotalTags := 1, FilteredTags := 1, KeptTags := 0, DeletedTags := ["a"], Errors := [], TotalSize := 7, ReclaimedSize := 7 }
     rfl⟩

/-- Claim C8, the code evaluated at the failing input. The lexicographic sorter
(`sort.Slice` with descending name comparison) is not stable: on
`unstableInput` the four tags named `"c"` enter in relative order
1, 4, 7, 10 (by `FullSize`) and leave in order 1, 4, 10, 7 — two
equal-comparing elements have swapped their relative input order.  The
spec's stability requirement would demand `sort.SliceStable`. -/
theorem lexicographicalSort_not_stable :
    lexicographicalSort unstableInput =
      [⟨"c", 0, 1⟩, ⟨"c", 0, 4⟩, ⟨"c", 0, 10⟩, ⟨"c", 0, 7⟩,
       ⟨"b", 0, 8⟩, ⟨"b", 0, 2⟩, ⟨"b", 0, 11⟩, ⟨"b", 0, 5⟩,
       ⟨"a", 0, 6⟩, ⟨"a", 0, 9⟩, ⟨"a", 0, 0⟩, ⟨"a", 0, 3⟩, ⟨"a", 0, 12⟩] ∧
    unstableInput.filter (fun t => t.Name == "c") =
      [⟨"c", 0, 1⟩, ⟨"c", 0, 4⟩, ⟨"c", 0, 7⟩, ⟨"c", 0, 10⟩] ∧
    (lexicographicalSort unstableInput).filter (fun t => t.Name == "c") =
      [⟨"c", 0, 1⟩, ⟨"c", 0, 4⟩, ⟨"c", 0, 10⟩, ⟨"c", 0, 7⟩] := by
  refine ⟨?_, ?_, ?_⟩ <;> rfl

end DockerHubCleaner
